import Mathlib

/-!
# SnapMap — verification of the specification against the source

Shallow embedding of the SnapMap browser application:

* `src/types.ts`          — the `Restaurant` data model (TypeScript types are erased at
                            runtime, so the `Country` enum field is carried as its string
                            value, and TS `number` is modelled by `ℚ`);
* `src/services/geminiService.ts` (source file `src/unnamed/part_000`) — `restaurantSchema`,
                            `analyzeImage`;
* `src/App.tsx`           — local-storage persistence (`STORAGE_KEY`, load-on-mount,
                            save-on-change) and `handleSaveRestaurant`;
* `src/components/RestaurantList.tsx` — the country→city grouping of the list view and
                            the map pin rendering of `MapVisualization`.

External platform functions (the browser's `JSON.stringify` / `JSON.parse`, d3's raw
spherical-Mercator math) are not code of this repository; theorems about behaviour that
passes through them take those functions as explicit parameters, assuming only their
documented properties where a claim needs them.
-/

namespace SnapMap

/-- A JSON value, the runtime shape of every value that crosses the
`JSON.stringify` / `JSON.parse` boundary and of the parsed Gemini response. -/
inductive Json where
  | str (s : String)
  | num (q : ℚ)
  | bool (b : Bool)
  | null
  | arr (elems : List Json)
  | obj (fields : List (String × Json))
deriving Repr

/-- `Coordinates` from `src/types.ts`: `{ lat: number; lng: number }`. -/
structure Coordinates where
  lat : ℚ
  lng : ℚ
deriving DecidableEq, Repr

/-- `Restaurant` from `src/types.ts`. The TS `Country` enum is erased at runtime:
the `country` field holds one of the strings "South Korea", "Japan", "Other"
(unchecked by the code, so modelled as an arbitrary `String`). -/
structure Restaurant where
  id : String
  name : String
  country : String
  city : String
  district : String
  description : String
  coordinates : Coordinates
  tags : List String
  originalImage : String
  createdAt : ℚ
deriving DecidableEq, Repr

/-- First match in an association list with string keys (the semantics of reading a
property of a plain JS object). -/
def assocFind {α : Type} : List (String × α) → String → Option α
  | [], _ => none
  | (k, v) :: rest, key => if k = key then some v else assocFind rest key

/-! ## JSON encoding of the data model

`JSON.stringify` serializes a `Restaurant` object field by field; the JSON value it
serializes (and that `JSON.parse` recovers) is given by `Restaurant.toJson`.
`Restaurant.fromJson` reads that value back, field accesses mirroring how the loaded
object is consumed as a `Restaurant` by the rest of the app. -/

def Coordinates.toJson (c : Coordinates) : Json :=
  .obj [("lat", .num c.lat), ("lng", .num c.lng)]

def Restaurant.toJson (r : Restaurant) : Json :=
  .obj [("id", .str r.id), ("name", .str r.name), ("country", .str r.country),
        ("city", .str r.city), ("district", .str r.district),
        ("description", .str r.description), ("coordinates", r.coordinates.toJson),
        ("tags", .arr (r.tags.map Json.str)), ("originalImage", .str r.originalImage),
        ("createdAt", .num r.createdAt)]

def encodeRestaurants (rs : List Restaurant) : Json :=
  .arr (rs.map Restaurant.toJson)

def Json.getField (j : Json) (key : String) : Option Json :=
  match j with
  | .obj fields => assocFind fields key
  | _ => none

def Json.asString : Json → Option String
  | .str s => some s
  | _ => none

def Json.asNum : Json → Option ℚ
  | .num q => some q
  | _ => none

def decodeStrings : List Json → Option (List String)
  | [] => some []
  | j :: rest =>
    match j.asString, decodeStrings rest with
    | some s, some t => some (s :: t)
    | _, _ => none

def Json.asStringArray : Json → Option (List String)
  | .arr elems => decodeStrings elems
  | _ => none

def Coordinates.fromJson (j : Json) : Option Coordinates :=
  ((j.getField "lat").bind Json.asNum).bind fun lat =>
  ((j.getField "lng").bind Json.asNum).bind fun lng =>
  some ⟨lat, lng⟩

def Restaurant.fromJson (j : Json) : Option Restaurant :=
  ((j.getField "id").bind Json.asString).bind fun id =>
  ((j.getField "name").bind Json.asString).bind fun name =>
  ((j.getField "country").bind Json.asString).bind fun country =>
  ((j.getField "city").bind Json.asString).bind fun city =>
  ((j.getField "district").bind Json.asString).bind fun district =>
  ((j.getField "description").bind Json.asString).bind fun description =>
  ((j.getField "coordinates").bind Coordinates.fromJson).bind fun coordinates =>
  ((j.getField "tags").bind Json.asStringArray).bind fun tags =>
  ((j.getField "originalImage").bind Json.asString).bind fun originalImage =>
  ((j.getField "createdAt").bind Json.asNum).bind fun createdAt =>
  some ⟨id, name, country, city, district, description, coordinates, tags,
        originalImage, createdAt⟩

def decodeRestaurantList : List Json → Option (List Restaurant)
  | [] => some []
  | j :: rest =>
    match Restaurant.fromJson j, decodeRestaurantList rest with
    | some r, some t => some (r :: t)
    | _, _ => none

def decodeRestaurants : Json → Option (List Restaurant)
  | .arr elems => decodeRestaurantList elems
  | _ => none

@[simp] theorem decodeStrings_map_str (l : List String) :
    decodeStrings (l.map Json.str) = some l := by
  induction l with
  | nil => rfl
  | cons a t ih => simp [decodeStrings, Json.asString, ih]

@[simp] theorem Restaurant.fromJson_toJson (r : Restaurant) :
    Restaurant.fromJson r.toJson = some r := by
  simp [Restaurant.fromJson, Restaurant.toJson, Coordinates.fromJson, Coordinates.toJson,
        Json.getField, assocFind, Json.asString, Json.asNum, Json.asStringArray]

@[simp] theorem decodeRestaurants_encodeRestaurants (rs : List Restaurant) :
    decodeRestaurants (encodeRestaurants rs) = some rs := by
  induction rs with
  | nil => rfl
  | cons r t ih =>
    simp only [encodeRestaurants, decodeRestaurants, List.map_cons] at *
    simp [decodeRestaurantList, ih]

/-! ## `src/App.tsx` — persistence and state updates

Browser local storage is a finite map from string keys to string values, modelled as
`Store`. The browser's `JSON.stringify` and `JSON.parse` are platform functions, not
repository code: theorems that cross the string boundary take `stringify : Json → String`
and `parse : String → Option Json` as parameters (`parse s = none` models a `JSON.parse`
that throws on `s`). -/

def STORAGE_KEY : String := "gourmet_snap_data"

abbrev Store : Type := String → Option String

def setItem (key value : String) (store : Store) : Store :=
  fun k => if k = key then some value else store k

def getItem (key : String) (store : Store) : Option String := store key

/-- The save-on-change effect of `App` (`useEffect` on `[restaurants]`): the complete
list of `localStorage.setItem` calls one run of the effect performs. The whole
application contains no other `localStorage` write. -/
def persistWrites (stringify : Json → String) (restaurants : List Restaurant) :
    List (String × String) :=
  [(STORAGE_KEY, stringify (encodeRestaurants restaurants))]

/-- The store after the save-on-change effect has run. -/
def saveEffect (stringify : Json → String) (restaurants : List Restaurant)
    (store : Store) : Store :=
  (persistWrites stringify restaurants).foldl (fun st kv => setItem kv.1 kv.2 st) store

/-- The load-on-mount effect of `App` (`useEffect` on `[]`): the `restaurants` state
after mounting, as the JS runtime value it is (a JSON value — `setRestaurants` installs
the raw result of `JSON.parse` unvalidated). The initial state `[]` is the value
`Json.arr []`. If nothing is stored, or `JSON.parse` throws (the `catch` branch), the
state keeps its initial value. -/
def mountState (parse : String → Option Json) (store : Store) : Json :=
  match getItem STORAGE_KEY store with
  | none => Json.arr []
  | some saved =>
    match parse saved with
    | some j => j
    | none => Json.arr []

/-- `handleSaveRestaurant` from `src/App.tsx`: `setRestaurants(prev => [restaurant, ...prev])`. -/
def handleSaveRestaurant (restaurant : Restaurant) (prev : List Restaurant) :
    List Restaurant :=
  restaurant :: prev

/-! ## `src/components/RestaurantList.tsx` — grouping for the list view

The component builds `g: Record<string, Record<string, Restaurant[]>>` by iterating over
`restaurants` and pushing each one onto `g[r.country][r.city]`, creating missing inner
records/arrays on the way. A JS record with string keys is an association list here
(property insertion order; `push` appends at the end of the bucket). -/

abbrev CityGroups : Type := List (String × List Restaurant)

abbrev CountryGroups : Type := List (String × CityGroups)

/-- `g[r.city].push(r)`, creating the bucket if absent. -/
def addToCity (cities : CityGroups) (r : Restaurant) : CityGroups :=
  match cities with
  | [] => [(r.city, [r])]
  | (c, rs) :: rest =>
    if c = r.city then (c, rs ++ [r]) :: rest else (c, rs) :: addToCity rest r

/-- One iteration of the `restaurants.forEach` body: `g[r.country][r.city].push(r)`. -/
def addToGroups (g : CountryGroups) (r : Restaurant) : CountryGroups :=
  match g with
  | [] => [(r.country, addToCity [] r)]
  | (co, cities) :: rest =>
    if co = r.country then (co, addToCity cities r) :: rest
    else (co, cities) :: addToGroups rest r

/-- The `grouped` value computed by `RestaurantList`. -/
def grouped (restaurants : List Restaurant) : CountryGroups :=
  restaurants.foldl addToGroups []

/-- The city bucket within one country group (empty when absent). -/
def cityBucket (cities : CityGroups) (city : String) : List Restaurant :=
  (assocFind cities city).getD []

/-- The `(country, city)` bucket the component renders: `grouped[country][city]`
(empty when absent). -/
def bucket (g : CountryGroups) (country city : String) : List Restaurant :=
  cityBucket ((assocFind g country).getD []) city

/-! ## `src/components/MapVisualization.tsx` — pin rendering

`MapVisualization` configures `d3.geoMercator().center([135, 36]).scale(width < 600 ?
800 : 1600).translate([width/2, height/2])` and draws, inside the points group, one
optional unclassed selection-ring circle (when `selectedRestaurant` is set) followed by
exactly one `circle.restaurant` per element of `restaurants`, placed at
`projection([d.coordinates.lng, d.coordinates.lat])`. The raw spherical-Mercator map
`raw : ℚ × ℚ → ℚ × ℚ` is d3 library math, taken as a parameter; d3's `center`/`scale`/
`translate` wiring means `projection p = translate + scale • (raw p - raw center)`. -/

structure ProjectionConfig where
  center : ℚ × ℚ
  scale : ℚ
  translate : ℚ × ℚ
deriving DecidableEq, Repr

/-- The projection configuration built in the render effect. -/
def mapProjectionConfig (width height : ℚ) : ProjectionConfig :=
  { center := (135, 36),
    scale := if width < 600 then 800 else 1600,
    translate := (width / 2, height / 2) }

/-- Applying a d3 projection with configuration `cfg` and raw map `raw` to a
`(lng, lat)` pair. -/
def project (raw : ℚ × ℚ → ℚ × ℚ) (cfg : ProjectionConfig) (p : ℚ × ℚ) : ℚ × ℚ :=
  (cfg.translate.1 + cfg.scale * ((raw p).1 - (raw cfg.center).1),
   cfg.translate.2 + cfg.scale * ((raw p).2 - (raw cfg.center).2))

/-- An SVG circle element appended by the render effect. -/
structure MapCircle where
  cx : ℚ
  cy : ℚ
  cssClass : String
deriving DecidableEq, Repr

/-- All circle elements the points group contains after one render: the selection ring
(no class) when a restaurant is selected, then one `circle.restaurant` per restaurant. -/
def renderMapCircles (raw : ℚ × ℚ → ℚ × ℚ) (width height : ℚ)
    (selectedRestaurant : Option Restaurant) (restaurants : List Restaurant) :
    List MapCircle :=
  let cfg := mapProjectionConfig width height
  (match selectedRestaurant with
   | some s =>
     [{ cx := (project raw cfg (s.coordinates.lng, s.coordinates.lat)).1,
        cy := (project raw cfg (s.coordinates.lng, s.coordinates.lat)).2,
        cssClass := "" }]
   | none => []) ++
  restaurants.map (fun r =>
    { cx := (project raw cfg (r.coordinates.lng, r.coordinates.lat)).1,
      cy := (project raw cfg (r.coordinates.lng, r.coordinates.lat)).2,
      cssClass := "restaurant" })

/-! ## `src/services/geminiService.ts` — schema, request and `analyzeImage` -/

inductive SchemaType where
  | object
  | string
  | number
  | array
deriving DecidableEq, Repr

/-- A `@google/genai` response schema value (the fragment of `Schema` this file uses). -/
inductive GenSchema where
  | mk (type : SchemaType) (description : Option String) (enum : Option (List String))
      (properties : List (String × GenSchema)) (items : Option GenSchema)
      (required : List String)
deriving Repr

def GenSchema.required : GenSchema → List String
  | .mk _ _ _ _ _ req => req

def GenSchema.enumValues : GenSchema → Option (List String)
  | .mk _ _ e _ _ _ => e

def GenSchema.properties : GenSchema → List (String × GenSchema)
  | .mk _ _ _ ps _ _ => ps

/-- `restaurantSchema` from the service module. -/
def restaurantSchema : GenSchema :=
  .mk .object none none
    [("name", .mk .string (some "Name of the restaurant or cafe.") none [] none []),
     ("country", .mk .string (some "The country where the place is located.")
        (some ["South Korea", "Japan", "Other"]) [] none []),
     ("city", .mk .string (some "The major city (e.g., Seoul, Tokyo, Osaka, Busan).")
        none [] none []),
     ("district", .mk .string (some "The specific district or ward (e.g., Gangnam-gu, Shinjuku).")
        none [] none []),
     ("description", .mk .string
        (some "A short 1-sentence summary of what makes this place good based on the image/text.")
        none [] none []),
     ("lat", .mk .number (some "Estimated latitude based on the city/district.") none [] none []),
     ("lng", .mk .number (some "Estimated longitude based on the city/district.") none [] none []),
     ("tags", .mk .array
        (some "List of 3 related keywords (e.g., \x27Sushi\x27, \x27Spicy\x27, \x27View\x27).")
        none [] (some (.mk .string none none [] none [])) [])]
    none
    ["name", "country", "city", "district", "lat", "lng", "description", "tags"]

/-- The `config` object of the `generateContent` call. -/
structure GenConfig where
  responseMimeType : String
  responseSchema : GenSchema
  temperature : ℚ
deriving Repr

structure InlineData where
  mimeType : String
  data : String
deriving DecidableEq, Repr

/-- One outbound `generateContent` request. -/
structure GenRequest where
  model : String
  imageData : InlineData
  promptText : String
  config : GenConfig
deriving Repr

def analysisPrompt : String :=
  "Analyze this screenshot from a social media video (Shorts/Reels). \n            Identify the restaurant or food spot. \n            Deduce the location (Focus on South Korea or Japan). \n            If the text is in Korean or Japanese, translate the location names to English but keep the Name in original script if it\x27s iconic, or English if provided.\n            Estimate the Latitude and Longitude for the district/city center so I can place it on a map."

/-- The request `analyzeImage` sends for a given base64 image. -/
def makeRequest (base64Image : String) : GenRequest :=
  { model := "gemini-2.5-flash",
    imageData := { mimeType := "image/jpeg", data := base64Image },
    promptText := analysisPrompt,
    config := { responseMimeType := "application/json",
                responseSchema := restaurantSchema,
                temperature := 0.4 } }

/-- What the awaited `generateContent` call does: throw, or return a response whose
`.text` is absent (`none`) or a string. -/
inductive ApiOutcome where
  | throws
  | returns (text : Option String)
deriving DecidableEq, Repr

/-- The schema-shaped object obtained from `JSON.parse(jsonText)`; reading the fields
`data.name`, …, `data.tags` of the parsed response. -/
structure GeminiData where
  name : String
  country : String
  city : String
  district : String
  lat : ℚ
  lng : ℚ
  description : String
  tags : List String
deriving DecidableEq, Repr

/-- The return type `Omit<Restaurant, 'id' | 'originalImage' | 'createdAt'>`:
a record with exactly these seven fields. -/
structure AnalyzedPlace where
  name : String
  country : String
  city : String
  district : String
  description : String
  coordinates : Coordinates
  tags : List String
deriving DecidableEq, Repr

def analysisErrorMessage : String :=
  "Failed to analyze image. Please try a clearer screenshot."

/-- One run of `analyzeImage base64Image`: the list of outbound requests it issues and
its result. `parseData` models the external `JSON.parse` applied to the response text
together with the field reads `data.name`, …, `data.tags` (`none` = parse throws). The
`try`/`catch` turns every failure — a throwing call, a falsy `response.text` (absent or
empty), or an unparsable body — into the one user-facing `Error`. -/
def analyzeImage (parseData : String → Option GeminiData) (base64Image : String)
    (outcome : ApiOutcome) : List GenRequest × Except String AnalyzedPlace :=
  ([makeRequest base64Image],
   match outcome with
   | .throws => .error analysisErrorMessage
   | .returns none => .error analysisErrorMessage
   | .returns (some jsonText) =>
     if jsonText = "" then .error analysisErrorMessage
     else
       match parseData jsonText with
       | none => .error analysisErrorMessage
       | some data =>
         .ok { name := data.name, country := data.country, city := data.city,
               district := data.district, description := data.description,
               coordinates := { lat := data.lat, lng := data.lng },
               tags := data.tags })

/-! ## Grouping lemmas -/

theorem cityBucket_addToCity_self (cities : CityGroups) (r : Restaurant) :
    cityBucket (addToCity cities r) r.city = cityBucket cities r.city ++ [r] := by
  induction cities with
  | nil => simp [addToCity, cityBucket, assocFind]
  | cons p rest ih =>
    obtain ⟨c, rs⟩ := p
    by_cases h : c = r.city
    · subst h
      simp [addToCity, cityBucket, assocFind]
    · simp only [addToCity, h, if_false]
      simpa [cityBucket, assocFind, h] using ih

theorem cityBucket_addToCity_ne (cities : CityGroups) (r : Restaurant) (ci : String)
    (h : ci ≠ r.city) :
    cityBucket (addToCity cities r) ci = cityBucket cities ci := by
  induction cities with
  | nil => simp [addToCity, cityBucket, assocFind, Ne.symm h]
  | cons p rest ih =>
    obtain ⟨c, rs⟩ := p
    by_cases hc : c = r.city
    · subst hc
      simp [addToCity, cityBucket, assocFind, Ne.symm h]
    · simp only [addToCity, hc, if_false]
      by_cases hci : c = ci
      · simp [cityBucket, assocFind, hci]
      · simpa [cityBucket, assocFind, hci] using ih

theorem bucket_cons (c : String) (cities : CityGroups) (rest : CountryGroups)
    (co ci : String) :
    bucket ((c, cities) :: rest) co ci =
      if c = co then cityBucket cities ci else bucket rest co ci := by
  by_cases h : c = co <;> simp [bucket, assocFind, h]

theorem bucket_nil (co ci : String) : bucket [] co ci = [] := by
  simp [bucket, cityBucket, assocFind]

theorem bucket_addToGroups (g : CountryGroups) (r : Restaurant) (co ci : String) :
    bucket (addToGroups g r) co ci =
      if co = r.country ∧ ci = r.city then bucket g co ci ++ [r]
      else bucket g co ci := by
  induction g with
  | nil =>
    show bucket [(r.country, addToCity [] r)] co ci = _
    rw [bucket_cons, bucket_nil]
    by_cases hco : co = r.country
    · subst hco
      by_cases hci : ci = r.city
      · subst hci
        simp [addToCity, cityBucket, assocFind, bucket_nil]
      · simp [addToCity, cityBucket, assocFind, bucket_nil, hci, Ne.symm hci]
    · simp [Ne.symm hco, hco]
  | cons p rest ih =>
    obtain ⟨c, cities⟩ := p
    by_cases hc : c = r.country
    · have hAdd : addToGroups ((c, cities) :: rest) r = (c, addToCity cities r) :: rest := by
        simp [addToGroups, hc]
      rw [hAdd]
      simp only [bucket_cons]
      by_cases hco : c = co
      · have hcor : co = r.country := hco.symm.trans hc
        by_cases hci : ci = r.city
        · subst hci
          simp [hco, hcor, cityBucket_addToCity_self]
        · simp [hco, hci, cityBucket_addToCity_ne cities r ci hci]
      · have : ¬(co = r.country) := fun e => hco (hc.trans e.symm)
        simp [hco, this]
    · have hAdd : addToGroups ((c, cities) :: rest) r = (c, cities) :: addToGroups rest r := by
        simp [addToGroups, hc]
      rw [hAdd]
      simp only [bucket_cons]
      by_cases hco : c = co
      · have : ¬(co = r.country) := fun e => hc (hco.trans e)
        simp [hco, this]
      · simp [hco, ih]

theorem bucket_foldl (rs : List Restaurant) (g : CountryGroups) (co ci : String) :
    bucket (rs.foldl addToGroups g) co ci =
      bucket g co ci ++ rs.filter (fun r => r.country == co && r.city == ci) := by
  induction rs generalizing g with
  | nil => simp
  | cons r t ih =>
    simp only [List.foldl_cons, List.filter_cons]
    rw [ih, bucket_addToGroups]
    by_cases h1 : r.country = co
    · subst h1
      by_cases h2 : r.city = ci
      · subst h2
        simp
      · simp [h2, Ne.symm h2]
    · simp [h1, Ne.symm h1]

/-- A restaurant used to instantiate hypotheses of the claim theorems at a
concrete input. -/
def sampleRestaurant : Restaurant :=
  ⟨"id-1", "Name", "Japan", "Tokyo", "Shibuya", "desc", ⟨35, 139⟩, ["sushi"], "img", 100⟩

/-! ## The claims -/

/-- C1. For every successful call, `analyzeImage` returns a record of type
`Omit<Restaurant, 'id' | 'originalImage' | 'createdAt'>` — a record with exactly the
fields name, country, city, district, description, coordinates and tags (`AnalyzedPlace`
has exactly those seven fields, so the result carries no id, originalImage or createdAt)
— where coordinates is built from the lat and lng fields of the parsed model response
and the other fields are copied verbatim from it. -/
theorem analyzeImage_ok_shape (parseData : String → Option GeminiData)
    (base64Image : String) (outcome : ApiOutcome) (place : AnalyzedPlace)
    (h : (analyzeImage parseData base64Image outcome).2 = .ok place) :
    ∃ jsonText data, outcome = .returns (some jsonText) ∧
      parseData jsonText = some data ∧
      place = { name := data.name, country := data.country, city := data.city,
                district := data.district, description := data.description,
                coordinates := { lat := data.lat, lng := data.lng },
                tags := data.tags } := by
  cases outcome with
  | throws => simp [analyzeImage] at h
  | returns text =>
    cases text with
    | none => simp [analyzeImage] at h
    | some s =>
      by_cases hs : s = ""
      · simp [analyzeImage, hs] at h
      · cases hd : parseData s with
        | none => simp [analyzeImage, hs, hd] at h
        | some d =>
          refine ⟨s, d, rfl, hd, ?_⟩
          simp [analyzeImage, hs, hd] at h
          exact h.symm

theorem analyzeImage_ok_shape_witness :
    (analyzeImage (fun _ => some ⟨"n", "Japan", "Tokyo", "Shibuya", 35, 139, "d", ["x"]⟩)
        "img" (.returns (some "raw"))).2 =
      .ok ⟨"n", "Japan", "Tokyo", "Shibuya", "d", ⟨35, 139⟩, ["x"]⟩ ∧
    ∃ jsonText data, (ApiOutcome.returns (some "raw")) = .returns (some jsonText) ∧
      (fun _ => some (⟨"n", "Japan", "Tokyo", "Shibuya", 35, 139, "d", ["x"]⟩ : GeminiData) :
          String → Option GeminiData) jsonText = some data ∧
      (⟨"n", "Japan", "Tokyo", "Shibuya", "d", ⟨35, 139⟩, ["x"]⟩ : AnalyzedPlace) =
        { name := data.name, country := data.country, city := data.city,
          district := data.district, description := data.description,
          coordinates := { lat := data.lat, lng := data.lng }, tags := data.tags } :=
  ⟨rfl, analyzeImage_ok_shape _ "img" _ _ rfl⟩

/-- C2. Every request `analyzeImage` sends uses one fixed structured-output
configuration: responseMimeType "application/json" and `restaurantSchema`, whose
required fields are exactly name, country, city, district, lat, lng, description, tags,
with country constrained to the enum "South Korea" / "Japan" / "Other"; the
configuration does not depend on the input image. -/
theorem analyzeImage_config_fixed (base64Image other : String) :
    (makeRequest base64Image).config = (makeRequest other).config ∧
    (makeRequest base64Image).config.responseMimeType = "application/json" ∧
    (makeRequest base64Image).config.responseSchema = restaurantSchema ∧
    restaurantSchema.required =
      ["name", "country", "city", "district", "lat", "lng", "description", "tags"] ∧
    (assocFind restaurantSchema.properties "country").map GenSchema.enumValues =
      some (some ["South Korea", "Japan", "Other"]) :=
  ⟨rfl, rfl, rfl, rfl, rfl⟩

/-- C3. The save-on-change effect performs exactly one local-storage write, under the
single key "gourmet_snap_data", whose value is the serialization of the entire
restaurants array; every other key of the store is left untouched. -/
theorem persistence_single_key (stringify : Json → String)
    (restaurants : List Restaurant) (store : Store) :
    persistWrites stringify restaurants =
      [("gourmet_snap_data", stringify (encodeRestaurants restaurants))] ∧
    (persistWrites stringify restaurants).length = 1 ∧
    saveEffect stringify restaurants store STORAGE_KEY =
      some (stringify (encodeRestaurants restaurants)) ∧
    ∀ k, k ≠ STORAGE_KEY → saveEffect stringify restaurants store k = store k := by
  refine ⟨rfl, rfl, ?_, ?_⟩
  · simp [saveEffect, persistWrites, setItem]
  · intro k hk
    simp [saveEffect, persistWrites, setItem, hk]

theorem persistence_single_key_witness :
    ("other_key" : String) ≠ STORAGE_KEY ∧
    saveEffect (fun _ => "blob") [] (fun _ => none) "other_key" = none :=
  ⟨by decide,
   (persistence_single_key (fun _ => "blob") [] (fun _ => none)).2.2.2 "other_key"
     (by decide)⟩

/-- C4. Round-trip of persistence: storing a restaurants list (serializing
`encodeRestaurants` under "gourmet_snap_data") and loading on mount (parsing the stored
string) yields the original list, provided the external `JSON.parse` inverts the
external `JSON.stringify` on the stored blob (the browser guarantee). -/
theorem persistence_roundtrip (stringify : Json → String) (parse : String → Option Json)
    (restaurants : List Restaurant) (store : Store)
    (h : parse (stringify (encodeRestaurants restaurants)) =
      some (encodeRestaurants restaurants)) :
    decodeRestaurants (mountState parse (saveEffect stringify restaurants store)) =
      some restaurants := by
  simp [mountState, getItem, saveEffect, persistWrites, setItem, h]

theorem persistence_roundtrip_witness :
    (fun _ => some (encodeRestaurants [sampleRestaurant]) : String → Option Json)
        ((fun _ => "blob" : Json → String) (encodeRestaurants [sampleRestaurant])) =
      some (encodeRestaurants [sampleRestaurant]) ∧
    decodeRestaurants
        (mountState (fun _ => some (encodeRestaurants [sampleRestaurant]))
          (saveEffect (fun _ => "blob") [sampleRestaurant] (fun _ => none))) =
      some [sampleRestaurant] :=
  ⟨rfl, persistence_roundtrip _ _ [sampleRestaurant] _ rfl⟩

/-- C5. The grouping computed by `RestaurantList` partitions the input by country and
then by city: the `(country, city)` bucket holds exactly the input restaurants whose own
country and city fields match, in input order — so no restaurant is dropped, duplicated,
or placed in a foreign bucket. -/
theorem grouped_bucket_eq_filter (restaurants : List Restaurant) (country city : String) :
    bucket (grouped restaurants) country city =
      restaurants.filter (fun r => r.country == country && r.city == city) := by
  have h := bucket_foldl restaurants [] country city
  rw [grouped, h, bucket_nil, List.nil_append]

/-- C6. The map renders one pin per saved record: the circle elements of class
"restaurant" are exactly one per restaurant, in order, each positioned at the projection
of that restaurant's `(lng, lat)`; the projection configuration is centered on
`[135, 36]`. (When a restaurant is selected, the only other circle in the points group
is the unclassed selection ring.) -/
theorem mapCircles_one_pin_per_restaurant (raw : ℚ × ℚ → ℚ × ℚ) (width height : ℚ)
    (selectedRestaurant : Option Restaurant) (restaurants : List Restaurant) :
    (renderMapCircles raw width height selectedRestaurant restaurants).filter
        (fun c => c.cssClass == "restaurant") =
      restaurants.map (fun r =>
        { cx := (project raw (mapProjectionConfig width height)
                   (r.coordinates.lng, r.coordinates.lat)).1,
          cy := (project raw (mapProjectionConfig width height)
                   (r.coordinates.lng, r.coordinates.lat)).2,
          cssClass := "restaurant" }) ∧
    (mapProjectionConfig width height).center = (135, 36) := by
  constructor
  · cases selectedRestaurant with
    | none => simp [renderMapCircles]
    | some s => simp [renderMapCircles, List.filter_append]
  · rfl

/-- C7. Each invocation of `analyzeImage` issues exactly one outbound `generateContent`
request, whatever the outcome: no retry, no second request. -/
theorem analyzeImage_single_request (parseData : String → Option GeminiData)
    (base64Image : String) (outcome : ApiOutcome) :
    (analyzeImage parseData base64Image outcome).1 = [makeRequest base64Image] ∧
    (analyzeImage parseData base64Image outcome).1.length = 1 :=
  ⟨rfl, rfl⟩

/-- C8. `handleSaveRestaurant` only prepends: the produced list has the new restaurant
as head and the previous list, unchanged, as tail. -/
theorem handleSaveRestaurant_prepends (restaurant : Restaurant)
    (prev : List Restaurant) :
    (handleSaveRestaurant restaurant prev).head? = some restaurant ∧
    (handleSaveRestaurant restaurant prev).tail = prev ∧
    (handleSaveRestaurant restaurant prev).length = prev.length + 1 ∧
    ∀ i : ℕ, (handleSaveRestaurant restaurant prev)[i + 1]? = prev[i]? := by
  refine ⟨rfl, rfl, by simp [handleSaveRestaurant], fun i => ?_⟩
  simp [handleSaveRestaurant]

/-- C9. `analyzeImage` fails atomically with a uniform error: whenever the API call
throws, returns no text, or returns text on which `JSON.parse` throws, the result is the
single error "Failed to analyze image. Please try a clearer screenshot." and no record
is returned. -/
theorem analyzeImage_uniform_error (parseData : String → Option GeminiData)
    (base64Image : String) (outcome : ApiOutcome)
    (h : outcome = .throws ∨ outcome = .returns none ∨
      ∃ s, outcome = .returns (some s) ∧ parseData s = none) :
    (analyzeImage parseData base64Image outcome).2 = .error analysisErrorMessage := by
  rcases h with h | h | ⟨s, h, hp⟩
  · subst h; rfl
  · subst h; rfl
  · subst h
    by_cases hs : s = "" <;> simp [analyzeImage, hs, hp]

theorem analyzeImage_uniform_error_witness :
    ((ApiOutcome.throws = .throws ∨ ApiOutcome.throws = .returns none ∨
      ∃ s, ApiOutcome.throws = .returns (some s) ∧
        (fun _ => (none : Option GeminiData)) s = none)) ∧
    (analyzeImage (fun _ => none) "img" .throws).2 = .error analysisErrorMessage :=
  ⟨Or.inl rfl, analyzeImage_uniform_error (fun _ => none) "img" .throws (Or.inl rfl)⟩

/-- C10. Corrupted storage is tolerated: on mount, if nothing is stored under
"gourmet_snap_data" or the stored string is one on which `JSON.parse` throws, the
restaurants state keeps its initial value, the empty list. -/
theorem mountState_corrupt_safe (parse : String → Option Json) (store : Store)
    (h : getItem STORAGE_KEY store = none ∨
      ∃ s, getItem STORAGE_KEY store = some s ∧ parse s = none) :
    mountState parse store = Json.arr [] ∧
    decodeRestaurants (mountState parse store) = some [] := by
  have hm : mountState parse store = Json.arr [] := by
    rcases h with h | ⟨s, h, hp⟩
    · simp [mountState, h]
    · simp [mountState, h, hp]
  exact ⟨hm, by rw [hm]; rfl⟩

theorem mountState_corrupt_safe_witness :
    (getItem STORAGE_KEY (fun _ => none) = none ∨
      ∃ s, getItem STORAGE_KEY (fun _ => none) = some s ∧
        (fun _ => (none : Option Json)) s = none) ∧
    mountState (fun _ => none) (fun _ => none) = Json.arr [] ∧
    decodeRestaurants (mountState (fun _ => none) (fun _ => none)) = some [] :=
  ⟨Or.inl rfl, mountState_corrupt_safe (fun _ => none) (fun _ => none) (Or.inl rfl)⟩

end SnapMap
